import Mathlib

/-!
Verification of the Slack analytics chatbot's conversational query pipeline.

Shallow embedding of the pipeline nodes (intent router, context resolver,
SQL generator, validator, executor with result cache, result interpreter,
terminal stages), the conditional routing functions, the conversation
history repository and the Slack transport limits, together with theorems
about the safety, retry-bound, caching, error-handling and formatting
behaviour of those functions.

Python strings are modelled as `List Char`; Python dicts threaded as the
working state are modelled as a structure of optional fields, and the
partial updates returned by each node as structures whose `Option` fields
distinguish an absent key (`none`) from a present value.  External
collaborators (the language-model gateway, the SQL parser, the query
engine, the hash function, the wall clock) are oracle parameters.
-/

namespace SlackAnalyticsBot

/-- Python `str` values, modelled as lists of characters. -/
abbrev Str := List Char

/-- `startsWith p s` is Python `s.startswith(p)` (`p` a prefix of `s`). -/
def startsWith : Str → Str → Bool
  | [], _ => true
  | _ :: _, [] => false
  | c :: p, a :: s => c = a && startsWith p s

/-- `strContains n h` is Python `n in h`: `n` occurs as a contiguous substring of `h`. -/
def strContains (n : Str) : Str → Bool
  | [] => n.isEmpty
  | a :: t => startsWith n (a :: t) || strContains n t

/-- `endsWith p s` is Python `s.endswith(p)`. -/
def endsWith (p s : Str) : Bool :=
  startsWith p.reverse s.reverse

/-- ASCII uppercasing of one character, as Python `str.upper` acts on ASCII text. -/
def pyUpperChar (c : Char) : Char :=
  if 'a' ≤ c ∧ c ≤ 'z' then Char.ofNat (c.toNat - 32) else c

/-- ASCII lowercasing of one character, as Python `str.lower` acts on ASCII text. -/
def pyLowerChar (c : Char) : Char :=
  if 'A' ≤ c ∧ c ≤ 'Z' then Char.ofNat (c.toNat + 32) else c

/-- Python `s.upper()` on ASCII text. -/
def pyUpper (s : Str) : Str := s.map pyUpperChar

/-- Python `s.lower()` on ASCII text. -/
def pyLower (s : Str) : Str := s.map pyLowerChar

/-- The characters stripped by Python `str.strip()` with no argument. -/
def isPySpace (c : Char) : Bool :=
  c = ' ' || c = '\t' || c = '\n' || c = '\r' || c = Char.ofNat 11 || c = Char.ofNat 12

/-- Python `s.strip()`: remove leading and trailing whitespace. -/
def pyStrip (s : Str) : Str :=
  (((s.dropWhile isPySpace).reverse.dropWhile isPySpace)).reverse

/-! ### The working state

Mirror of `ChatbotState` (`app/agents/analytics_chatbot/state.py`), restricted to
the fields read or written by the embedded nodes.  `conversation_history` entries
are the `{user, bot}` pairs the nodes construct and read. -/

/-- A JSON-safe Python value as it appears in a result row after the executor's
serialisation step (`_serialize_value`): `None`, `bool`, `int`, `float`,
`str`, or a nested container.  The `float` payload is the decimal text of the
value; only the constructor tag matters to the pipeline. -/
inductive PyVal where
  | vNone
  | vBool (b : Bool)
  | vInt (n : Int)
  | vFloat (repr : Str)
  | vStr (s : Str)
  | vList (items : List PyVal)
  | vDict (items : List (Str × PyVal))

/-- One result row: a Python dict from column name to value. -/
abbrev Row := List (Str × PyVal)

/-- Python `row.get(key)` with default `None`. -/
def rowGet (r : Row) (k : Str) : PyVal :=
  match r.find? (fun p => p.1 = k) with
  | some p => p.2
  | none => PyVal.vNone

/-- `isinstance(v, int | float | str | None)`: the scalar test used by the result
interpreter.  Python `bool` is a subclass of `int`, so it passes. -/
def pyIsScalar (v : PyVal) : Bool :=
  match v with
  | .vNone | .vBool _ | .vInt _ | .vFloat _ | .vStr _ => true
  | .vList _ | .vDict _ => false

/-- One cached result bundle (`CacheEntry` in `state.py`): created by the executor
on a successful execution.  `timestamp` is the `datetime.now()` creation instant,
modelled as a natural number. -/
structure CacheEntry where
  sql : Str
  results : List Row
  timestamp : Nat
  natural_query : Str
  assumptions : List Str

/-- The per-thread result cache: a `dict` keyed by the statement fingerprint,
modelled as an association list in insertion order (Python dicts preserve
insertion order, which `min` iterates over). -/
abbrev QueryCache := List (Str × CacheEntry)

/-- The graph's working state (`ChatbotState`), restricted to the fields the
embedded nodes read.  Absent dict keys are `Option` fields holding `none`;
fields read through `state.get(key, default)` with a non-`None` default are
plain fields initialised to that default. -/
structure ChatbotState where
  user_query : Str := []
  conversation_history : List (Str × Str) := []
  intent : Str := []
  resolved_query : Option Str := none
  referenced_query_id : Option Str := none
  generated_sql : Option Str := none
  sql_error : Option Str := none
  sql_valid : Bool := false
  retry_count : Nat := 0
  query_results : Option (List Row) := none
  row_count : Nat := 0
  column_names : List Str := []
  current_query_id : Option Str := none
  query_cache : QueryCache := []
  response_format : Str := []
  response_text : Str := []
  assumptions_made : List Str := []

/-! ### SQL validator (`nodes/sql_validator.py`) -/

/-- The fixed list of disallowed write keywords (`DANGEROUS_KEYWORDS`). -/
def DANGEROUS_KEYWORDS : List Str :=
  ["DROP".data, "DELETE".data, "UPDATE".data, "INSERT".data, "TRUNCATE".data,
   "ALTER".data, "CREATE".data, "GRANT".data, "REVOKE".data, "EXEC".data,
   "EXECUTE".data]

/-- The validator's rejection message for a detected write keyword. -/
def keywordError (kw : Str) : Str :=
  ("Write operation '".data) ++ kw ++ ("' not allowed. Only SELECT queries are permitted.".data)

/-- The validator's detection test for one keyword: the source checks
`f" {keyword} " in f" {sql_upper} "` or `sql_upper.startswith(f"{keyword} ")`,
i.e. an occurrence delimited by ASCII spaces (with one space implicitly added
at each end of the statement), not a word-boundary match. -/
def spaceDelimited (kw sqlUpper : Str) : Bool :=
  strContains ((' ' :: kw) ++ [' ']) ((' ' :: sqlUpper) ++ [' ']) ||
    startsWith (kw ++ [' ']) sqlUpper

/-- The first dangerous keyword the validator's loop detects, if any. -/
def dangerousKeywordMatch (sqlUpper : Str) : Option Str :=
  DANGEROUS_KEYWORDS.find? (fun kw => spaceDelimited kw sqlUpper)

/-- The partial update returned by `validate_sql`: both keys are always present. -/
structure ValidatorUpdate where
  sql_valid : Bool
  sql_error : Option Str

/-- `validate_sql` (`nodes/sql_validator.py`).  `parseOk sql` is the oracle for
the external `sqlparse` library: `true` when `sqlparse.parse(sql)` returns a
non-empty statement with tokens without raising. -/
def validate_sql (parseOk : Str → Bool) (st : ChatbotState) : ValidatorUpdate :=
  match st.generated_sql with
  | none => ⟨false, some ("No SQL query generated".data)⟩
  | some sql =>
    if sql.isEmpty then ⟨false, some ("No SQL query generated".data)⟩
    else
      let sqlUpper := pyUpper sql
      match dangerousKeywordMatch sqlUpper with
      | some kw => ⟨false, some (keywordError kw)⟩
      | none =>
        let stripped := pyStrip sqlUpper
        if !(startsWith ("SELECT".data) stripped) && !(startsWith ("WITH".data) stripped) then
          ⟨false, some ("Only SELECT queries are permitted.".data)⟩
        else if parseOk sql then ⟨true, none⟩
        else ⟨false, some ("Failed to parse SQL query".data)⟩

/-! ### Conditional routing (`routing.py`) -/

/-- Names of the graph nodes a routing function can select. -/
inductive GraphNode where
  | sqlGenerator
  | contextResolver
  | csvExport
  | sqlRetrieval
  | decline
  | executor
  | errorResponse
  | interpreter
  | formatResponse
  deriving DecidableEq

/-- `route_after_validation`: send the statement on to the executor exactly when
the validator marked it valid; otherwise retry generation while
`retry_count < 2`, else go to the error terminal. -/
def route_after_validation (st : ChatbotState) : GraphNode :=
  if st.sql_valid then GraphNode.executor
  else if st.retry_count < 2 then GraphNode.sqlGenerator
  else GraphNode.errorResponse

/-- `route_after_execution`: on success go to the interpreter; otherwise retry
generation while `retry_count < 3`, else go to the error terminal. -/
def route_after_execution (st : ChatbotState) : GraphNode :=
  if st.sql_error.isNone then GraphNode.interpreter
  else if st.retry_count < 3 then GraphNode.sqlGenerator
  else GraphNode.errorResponse

/-! ### The spec's reading of the keyword rule

The specification demands a *word-boundary* match ("standalone token
(word-boundary match, not substring)").  The following definitions are
modelled from the spec's words, to be compared with the validator's
space-delimited check. -/

/-- A word character in the regex `\b` sense: alphanumeric or underscore. -/
def isWordChar (c : Char) : Bool := c.isAlphanum || c = '_'

/-- A boundary next to an occurrence: the string edge or a non-word character. -/
def boundaryOK (c : Option Char) : Bool :=
  match c with
  | none => true
  | some c => !(isWordChar c)

/-- Helper for `wordBoundaryOccurs`: scan every position of `s`, remembering the
previous character. -/
def wordBoundaryAux (kw : Str) (prev : Option Char) (s : Str) : Bool :=
  (boundaryOK prev && startsWith kw s && boundaryOK (s.drop kw.length).head?) ||
    (match s with
     | [] => false
     | c :: t => wordBoundaryAux kw (some c) t)

/-- Modelled from the spec: `kw` occurs in `s` as a standalone token in the
word-boundary sense (the occurrence is not immediately preceded or followed by
an alphanumeric or underscore character). -/
def wordBoundaryOccurs (kw s : Str) : Bool :=
  wordBoundaryAux kw none s

/-- A statement on which the space-delimited check and the word-boundary rule
disagree: `DROP` follows a semicolon, so it is a standalone token in the
word-boundary sense but is not delimited by spaces. -/
def smugglingStatement : Str := "SELECT 1;DROP TABLE users".data

/-- The state fed to the validator in the examples: only `generated_sql` is set. -/
def stateWithSql (sql : Str) : ChatbotState := { generated_sql := some sql }

/-- Claim C1, amended: the validator rejects a statement, naming the offending
keyword, whenever a disallowed write keyword occurs delimited by ASCII spaces
(with a space implicitly added at each end of the statement), case-insensitively;
a statement the validator marks valid has no space-delimited occurrence of any
disallowed keyword; and the router sends a statement to the executor only when
the validator returned valid.  (The source checks space-delimited occurrences,
not word-boundary matches; see the counterexample.) -/
theorem c1_validator_space_delimited_safety :
    (∀ (parseOk : Str → Bool) (st : ChatbotState) (kw : Str), kw ∈ DANGEROUS_KEYWORDS →
      spaceDelimited kw (pyUpper (st.generated_sql.getD [])) = true →
      (validate_sql parseOk st).sql_valid = false ∧
      ∃ kw₀ ∈ DANGEROUS_KEYWORDS,
        spaceDelimited kw₀ (pyUpper (st.generated_sql.getD [])) = true ∧
        (validate_sql parseOk st).sql_error = some (keywordError kw₀)) ∧
    (∀ (parseOk : Str → Bool) (st : ChatbotState),
      (validate_sql parseOk st).sql_valid = true →
      ∀ kw ∈ DANGEROUS_KEYWORDS, spaceDelimited kw (pyUpper (st.generated_sql.getD [])) = false) ∧
    (∀ st : ChatbotState, route_after_validation st = GraphNode.executor → st.sql_valid = true) := by
  have hempty : ∀ kw' ∈ DANGEROUS_KEYWORDS, spaceDelimited kw' (pyUpper []) = false := by decide
  refine ⟨?_, ?_, ?_⟩
  · intro parseOk st kw hmem hdelim
    match hsql : st.generated_sql with
    | none =>
      rw [hsql, Option.getD_none] at hdelim
      exact absurd hdelim (by simp [hempty kw hmem])
    | some sql =>
      rw [hsql, Option.getD_some] at hdelim
      match sql with
      | [] => exact absurd hdelim (by simp [hempty kw hmem])
      | a :: t =>
        have hfind : ∃ kw₀, dangerousKeywordMatch (pyUpper (a :: t)) = some kw₀ := by
          rcases h : dangerousKeywordMatch (pyUpper (a :: t)) with _ | kw₀
          · unfold dangerousKeywordMatch at h
            exact absurd (List.find?_eq_none.mp h kw hmem) (by simp [hdelim])
          · exact ⟨kw₀, rfl⟩
        obtain ⟨kw₀, hkw₀⟩ := hfind
        have hkw₀' : DANGEROUS_KEYWORDS.find? (fun k => spaceDelimited k (pyUpper (a :: t))) = some kw₀ := hkw₀
        have hkmem : kw₀ ∈ DANGEROUS_KEYWORDS := List.mem_of_find?_eq_some hkw₀'
        have hksat : spaceDelimited kw₀ (pyUpper (a :: t)) = true := by
          have := List.find?_some hkw₀'
          simpa using this
        refine ⟨?_, ⟨kw₀, hkmem, by simp only [Option.getD_some]; exact hksat, ?_⟩⟩ <;>
          simp [validate_sql, hsql, hkw₀]
  · intro parseOk st hvalid kw hmem
    match hsql : st.generated_sql with
    | none => simp [validate_sql, hsql] at hvalid
    | some sql =>
      match sql with
      | [] => simp [validate_sql, hsql] at hvalid
      | a :: t =>
        simp only [Option.getD_some]
        rcases h : dangerousKeywordMatch (pyUpper (a :: t)) with _ | kw₀
        · unfold dangerousKeywordMatch at h
          simpa using List.find?_eq_none.mp h kw hmem
        · exfalso
          simp [validate_sql, hsql, h] at hvalid
  · intro st hroute
    unfold route_after_validation at hroute
    by_cases h : st.sql_valid = true
    · exact h
    · rw [if_neg h] at hroute
      by_cases h2 : st.retry_count < 2
      · rw [if_pos h2] at hroute
        exact absurd hroute (by decide)
      · rw [if_neg h2] at hroute
        exact absurd hroute (by decide)

/-- Witness for `c1_validator_space_delimited_safety`: `DROP TABLE users` is
rejected naming a keyword, and the space-delimited premise holds there. -/
theorem c1_validator_space_delimited_safety_witness :
    (("DROP".data ∈ DANGEROUS_KEYWORDS) ∧
      spaceDelimited ("DROP".data)
        (pyUpper ((stateWithSql ("DROP TABLE users".data)).generated_sql.getD [])) = true) ∧
    ((validate_sql (fun _ => true) (stateWithSql ("DROP TABLE users".data))).sql_valid = false ∧
      ∃ kw₀ ∈ DANGEROUS_KEYWORDS,
        spaceDelimited kw₀
          (pyUpper ((stateWithSql ("DROP TABLE users".data)).generated_sql.getD [])) = true ∧
        (validate_sql (fun _ => true) (stateWithSql ("DROP TABLE users".data))).sql_error =
          some (keywordError kw₀)) :=
  ⟨⟨by decide, by decide⟩,
    c1_validator_space_delimited_safety.1 (fun _ => true)
      (stateWithSql ("DROP TABLE users".data)) ("DROP".data) (by decide) (by decide)⟩

/-- Counterexample to claim C1 as stated: in `SELECT 1;DROP TABLE users` the
keyword `DROP` occurs as a standalone token in the word-boundary sense (it
follows a semicolon), yet the validator (with the SQL parser accepting, as
`sqlparse` does on this statement) returns valid, and the router then sends the
statement to the executor. -/
theorem c1_wordboundary_counterexample :
    wordBoundaryOccurs ("DROP".data) (pyUpper smugglingStatement) = true ∧
    (validate_sql (fun _ => true) (stateWithSql smugglingStatement)).sql_valid = true ∧
    route_after_validation
      { sql_valid := (validate_sql (fun _ => true) (stateWithSql smugglingStatement)).sql_valid } =
      GraphNode.executor :=
  ⟨by decide, by decide, by decide⟩

/-! ### SQL generator (`nodes/sql_generator.py`) -/

/-- The partial update returned by `generate_sql`: all four keys are present on
every return path. -/
structure GeneratorUpdate where
  generated_sql : Option Str
  assumptions_made : List Str
  retry_count : Nat
  sql_error : Option Str

/-- First index at which `n` starts inside `h` (Python `h.find(n)`), meaningful
when `n` occurs in `h`. -/
def strFindIdx (n : Str) : Str → Nat
  | [] => 0
  | a :: t => if startsWith n (a :: t) then 0 else strFindIdx n t + 1

/-- Python `s.find(c, start)`: index of the first occurrence of the character
`c` at or after `start`, or `none`. -/
def findCharFrom (c : Char) (s : Str) (start : Nat) : Option Nat :=
  match (s.drop start).findIdx? (fun x => x = c) with
  | some j => some (start + j)
  | none => none

/-- `generate_sql` (`nodes/sql_generator.py`), which turns the gateway's
response text into a partial update.  `content` is the oracle response text of
the language-model gateway (the prompt construction does not affect the
returned update).  `jsonParse content` is the JSON-parsing oracle: `some`
carries `(result.get("sql", ""), result.get("assumptions", []))` when
`json.loads` succeeds, `none` models a `JSONDecodeError`.  On parse failure the
node extracts the first `SELECT … ;` span, else reports a generation failure;
`retry_count` is incremented on every path. -/
def generate_sql (jsonParse : Str → Option (Str × List Str)) (content : Str)
    (st : ChatbotState) : GeneratorUpdate :=
  let retry_count := st.retry_count
  match jsonParse content with
  | some (sql, assumptions) => ⟨some sql, assumptions, retry_count + 1, none⟩
  | none =>
    if strContains ("SELECT".data) (pyUpper content) then
      let start := strFindIdx ("SELECT".data) (pyUpper content)
      let sql :=
        match findCharFrom ';' content start with
        | some e => (content.drop start).take (e + 1 - start)
        | none => content.drop start
      ⟨some (pyStrip sql), [], retry_count + 1, none⟩
    else
      ⟨none, [], retry_count + 1, some ("Failed to generate valid SQL from LLM response".data)⟩

/-! ### The generator/validator retry loop and the executor edge

Both graph wirings (`graph.py` in each variant) connect
`sql_generator → sql_validator` unconditionally, route after the validator
with `route_after_validation` (loop back to the generator while
`retry_count < 2`, else the error terminal), and then connect
`executor → interpreter → format_response` through unconditional `add_edge`
calls.  `route_after_execution` (loop back while `retry_count < 3`) is
defined in `routing.py` but wired into neither graph, so the outcome of an
execution does not influence routing.  `turnRun` drives one turn of the
wired loop from a state whose `retry_count` is `rc` (the graph drivers
initialise it to 0): the generator increments `retry_count` (by
`generate_sql`'s contract, proved in claim C2), and the adversarial oracles
`valOk n` / `execOk n` say whether the statement produced by the `n`-th
generator invocation validates / executes successfully. -/

/-- The `sql_error` detail the executor's except-branch would report when the
driver models a failed execution. -/
def execFailDetail : Str := "Execution failed: engine error".data

/-- The `sql_error` value after an execution attempt: absent on success,
present on failure. -/
def execResultError (ok : Bool) : Option Str :=
  if ok then none else some execFailDetail

/-- The outcome of one driven turn: generator invocations, visits to the
error terminal, the terminal node the turn ends at, and the `sql_error` the
executor left in the merged state (`none` when no execution happened). -/
structure RunResult where
  gens : Nat
  errors : Nat
  terminal : GraphNode
  exec_error : Option Str

/-- Drive one turn of the wired graph from a state whose `retry_count` is
`rc`: invoke the generator once (incrementing `retry_count`), consult
`route_after_validation`, and loop back to the generator exactly when it
selects `sql_generator`.  When it selects the executor, the unconditional
edges `executor → interpreter → format_response` end the turn at
`format_response` whatever the execution outcome; when it selects the error
terminal, the turn ends at `error_response`. -/
def turnRun (valOk execOk : Nat → Bool) (rc : Nat) : RunResult :=
  let rc' := rc + 1
  if route_after_validation { sql_valid := valOk rc', retry_count := rc' } =
      GraphNode.executor then
    ⟨1, 0, GraphNode.formatResponse, execResultError (execOk rc')⟩
  else if hG : route_after_validation { sql_valid := valOk rc', retry_count := rc' } =
      GraphNode.sqlGenerator then
    let r := turnRun valOk execOk rc'
    ⟨r.gens + 1, r.errors, r.terminal, r.exec_error⟩
  else ⟨1, 1, GraphNode.errorResponse, none⟩
termination_by 2 - rc
decreasing_by
  simp only [route_after_validation] at hG
  split at hG
  · simp at hG
  · split at hG
    · omega
    · simp at hG

/-- `route_after_validation` selects the executor exactly when the validator
marked the statement valid. -/
theorem route_after_validation_eq_executor (st : ChatbotState) :
    route_after_validation st = GraphNode.executor ↔ st.sql_valid = true := by
  unfold route_after_validation
  by_cases h : st.sql_valid = true
  · simp [h]
  · simp only [h, if_false]
    by_cases h2 : st.retry_count < 2 <;> simp [h, h2]

/-- `route_after_validation` loops back to the generator exactly when the
statement is invalid and `retry_count < 2`. -/
theorem route_after_validation_eq_sqlGenerator (st : ChatbotState) :
    route_after_validation st = GraphNode.sqlGenerator ↔
      st.sql_valid = false ∧ st.retry_count < 2 := by
  unfold route_after_validation
  by_cases h : st.sql_valid = true
  · simp [h]
  · by_cases h2 : st.retry_count < 2 <;>
      simp [h, h2, Bool.not_eq_true]

/-- `route_after_execution` reaches the interpreter exactly when execution
reported no error. -/
theorem route_after_execution_eq_interpreter (st : ChatbotState) :
    route_after_execution st = GraphNode.interpreter ↔ st.sql_error.isNone = true := by
  unfold route_after_execution
  by_cases h : st.sql_error.isNone = true
  · simp [h]
  · by_cases h2 : st.retry_count < 3 <;> simp [h, h2]

/-- `route_after_execution` loops back to the generator exactly when execution
failed and `retry_count < 3`. -/
theorem route_after_execution_eq_sqlGenerator (st : ChatbotState) :
    route_after_execution st = GraphNode.sqlGenerator ↔
      st.sql_error.isNone = false ∧ st.retry_count < 3 := by
  unfold route_after_execution
  by_cases h : st.sql_error.isNone = true
  · simp [h]
  · by_cases h2 : st.retry_count < 3 <;>
      simp [h, h2, Bool.not_eq_true]

/-- Master bound for one driven turn started at `retry_count = rc`: the
generator runs at most `max (rc + 1) 2 - rc` times, the error terminal is
entered at most once, and when no attempt validates the turn ends in the
error terminal exactly once. -/
theorem turnRun_bounds (valOk execOk : Nat → Bool) (rc : Nat) :
    (turnRun valOk execOk rc).gens + rc ≤ max (rc + 1) 2 ∧
    (turnRun valOk execOk rc).errors ≤ 1 ∧
    ((∀ n, valOk n = false) →
      (turnRun valOk execOk rc).errors = 1 ∧
      (turnRun valOk execOk rc).terminal = GraphNode.errorResponse) := by
  have main : ∀ fuel rc : Nat, 2 - rc ≤ fuel →
      (turnRun valOk execOk rc).gens + rc ≤ max (rc + 1) 2 ∧
      (turnRun valOk execOk rc).errors ≤ 1 ∧
      ((∀ n, valOk n = false) →
        (turnRun valOk execOk rc).errors = 1 ∧
        (turnRun valOk execOk rc).terminal = GraphNode.errorResponse) := by
    intro fuel
    induction fuel with
    | zero =>
      intro rc hrc
      rw [turnRun]
      split
      · rename_i hV
        refine ⟨by simp; omega, by simp, ?_⟩
        intro hfail
        exfalso
        have hv : valOk (rc + 1) = true := by
          have := (route_after_validation_eq_executor _).mp hV
          simpa using this
        rw [hfail (rc + 1)] at hv
        exact Bool.false_ne_true hv
      · rename_i hV
        split
        · rename_i hG
          have h2 : rc + 1 < 2 := by
            have h := (route_after_validation_eq_sqlGenerator _).mp hG
            simpa using h.2
          omega
        · rename_i hG
          refine ⟨by simp; omega, by simp, fun _ => by simp⟩
    | succ fuel ih =>
      intro rc hrc
      rw [turnRun]
      split
      · rename_i hV
        refine ⟨by simp; omega, by simp, ?_⟩
        intro hfail
        exfalso
        have hv : valOk (rc + 1) = true := by
          have := (route_after_validation_eq_executor _).mp hV
          simpa using this
        rw [hfail (rc + 1)] at hv
        exact Bool.false_ne_true hv
      · rename_i hV
        split
        · rename_i hG
          have h2 : rc + 1 < 2 := by
            have h := (route_after_validation_eq_sqlGenerator _).mp hG
            simpa using h.2
          obtain ⟨ih1, ih2, ih3⟩ := ih (rc + 1) (by omega)
          refine ⟨?_, ?_, ?_⟩
          · show (turnRun valOk execOk (rc + 1)).gens + 1 + rc ≤ max (rc + 1) 2
            omega
          · show (turnRun valOk execOk (rc + 1)).errors ≤ 1
            exact ih2
          · intro hfail
            show (turnRun valOk execOk (rc + 1)).errors = 1 ∧
              (turnRun valOk execOk (rc + 1)).terminal = GraphNode.errorResponse
            exact ih3 hfail
        · rename_i hG
          refine ⟨by simp; omega, by simp, fun _ => by simp⟩
  exact main (2 - rc) rc (le_refl _)

/-- Claim C2 (amended): `generate_sql` increments `retry_count` by exactly 1
on every return path; in the wired graph the retry loop is
validator-triggered only: a turn started at the drivers' initial
`retry_count = 0` invokes the generator at most 2 times (the validator
loop-back bound, within the claimed `bound + 1`), enters the error terminal
at most once, and for any sequence of persistent generation/validation
failures ends at the error terminal exactly once; and whenever an attempt
validates, the unconditional `executor → interpreter → format_response`
edges end the turn at `format_response` with zero error-terminal visits,
whatever the execution outcome — the executor-triggered loop-back
(`route_after_execution`, bound 3) is wired into neither graph. -/
theorem c2_retry_loop_validator_bounded :
    (∀ (jsonParse : Str → Option (Str × List Str)) (content : Str) (st : ChatbotState),
      (generate_sql jsonParse content st).retry_count = st.retry_count + 1) ∧
    (∀ valOk execOk : Nat → Bool,
      (turnRun valOk execOk 0).gens ≤ 2 ∧ (turnRun valOk execOk 0).errors ≤ 1) ∧
    (∀ valOk execOk : Nat → Bool, (∀ n, valOk n = false) →
      (turnRun valOk execOk 0).errors = 1 ∧
      (turnRun valOk execOk 0).terminal = GraphNode.errorResponse) ∧
    (∀ (valOk execOk : Nat → Bool) (rc : Nat), valOk (rc + 1) = true →
      turnRun valOk execOk rc =
        ⟨1, 0, GraphNode.formatResponse, execResultError (execOk (rc + 1))⟩) := by
  refine ⟨?_, ?_, ?_, ?_⟩
  · intro jsonParse content st
    unfold generate_sql
    rcases jsonParse content with _ | ⟨sql, assumptions⟩
    · by_cases h : strContains ("SELECT".data) (pyUpper content) = true <;> simp [h]
    · rfl
  · intro valOk execOk
    have h := turnRun_bounds valOk execOk 0
    exact ⟨by omega, h.2.1⟩
  · intro valOk execOk hfail
    exact (turnRun_bounds valOk execOk 0).2.2 hfail
  · intro valOk execOk rc h
    have hV : route_after_validation
        { sql_valid := valOk (rc + 1), retry_count := rc + 1 } = GraphNode.executor :=
      (route_after_validation_eq_executor _).mpr (by simpa using h)
    rw [turnRun]
    simp [hV]

/-- Witness for `c2_retry_loop_validator_bounded`: with every attempt failing
validation the turn ends at the error terminal exactly once, and with the
first attempt validating but its execution failing the turn still ends at
`format_response` with no error-terminal visit. -/
theorem c2_retry_loop_validator_bounded_witness :
    ((∀ n, (fun _ => false : Nat → Bool) n = false) ∧
      (turnRun (fun _ => false) (fun _ => false) 0).errors = 1 ∧
      (turnRun (fun _ => false) (fun _ => false) 0).terminal = GraphNode.errorResponse) ∧
    ((fun _ => true : Nat → Bool) (0 + 1) = true ∧
      turnRun (fun _ => true) (fun _ => false) 0 =
        ⟨1, 0, GraphNode.formatResponse, some execFailDetail⟩) :=
  ⟨⟨fun _ => rfl,
    c2_retry_loop_validator_bounded.2.2.1 (fun _ => false) (fun _ => false) (fun _ => rfl)⟩,
   ⟨rfl,
    c2_retry_loop_validator_bounded.2.2.2 (fun _ => true) (fun _ => false) 0 rfl⟩⟩

/-- Claim C2, counterexample to the executor-triggered loop of the original
claim: with the first generated statement validating and every execution
failing — a sequence of repeated execution failures — the turn ends at
`format_response` carrying the executor's `sql_error`, with the error
terminal visited zero times (not once) and a single generator invocation,
because both graphs wire `executor → interpreter` unconditionally and never
consult `route_after_execution`. -/
theorem c2_executor_loop_counterexample :
    (turnRun (fun _ => true) (fun _ => false) 0).exec_error = some execFailDetail ∧
    (turnRun (fun _ => true) (fun _ => false) 0).terminal = GraphNode.formatResponse ∧
    (turnRun (fun _ => true) (fun _ => false) 0).errors = 0 ∧
    (turnRun (fun _ => true) (fun _ => false) 0).gens = 1 := by
  rw [turnRun]
  decide

/-! ### SQL executor and result cache (`nodes/sql_executor.py`) -/

/-- Python `a or b` for strings with `a` optional: the fallback is used when `a`
is `None` or empty (`state.get("resolved_query") or state.get("user_query", "")`). -/
def pyOrStr (o : Option Str) (fallback : Str) : Str :=
  match o with
  | some s => if s.isEmpty then fallback else s
  | none => fallback

/-- Python dict assignment `cache[k] = v`: replace in place when the key is
present, else append (dicts preserve insertion order). -/
def cacheInsert (cache : QueryCache) (k : Str) (v : CacheEntry) : QueryCache :=
  if cache.any (fun p => p.1 = k) then
    cache.map (fun p => if p.1 = k then (k, v) else p)
  else cache ++ [(k, v)]

/-- `min(updated_cache, key=lambda k: updated_cache[k]["timestamp"])` keeps the
current best and replaces it only on strictly smaller timestamps, so it returns
the first pair attaining the minimum in iteration order. -/
def minTimestampPair (p : Str × CacheEntry) : QueryCache → Str × CacheEntry
  | [] => p
  | q :: t => if q.2.timestamp < p.2.timestamp then minTimestampPair q t else minTimestampPair p t

/-- The `oldest_key` computed before pruning: the key of the first entry with
minimal timestamp. -/
def cacheOldestKey (c : QueryCache) : Str :=
  match c with
  | [] => []
  | p :: t => (minTimestampPair p t).1

/-- Python `del cache[k]` on a dict whose keys are unique: drop the pairs with
key `k`. -/
def cacheDelete (c : QueryCache) (k : Str) : QueryCache :=
  c.filter (fun q => !(q.1 = k : Bool))

/-- The executor's cache maintenance: insert the new entry, then, if the cache
now holds more than 10 entries, remove the entry with the smallest timestamp. -/
def updateQueryCache (cache : QueryCache) (query_id : Str) (entry : CacheEntry) : QueryCache :=
  let updated := cacheInsert cache query_id entry
  if updated.length > 10 then cacheDelete updated (cacheOldestKey updated) else updated

/-- The partial update returned by `execute_and_cache`: a key absent from the
returned dict is `none`; `query_results` and `sql_error` are present with value
`None` on some paths, hence the nested options. -/
structure ExecutorUpdate where
  query_results : Option (Option (List Row)) := none
  row_count : Option Nat := none
  column_names : Option (List Str) := none
  current_query_id : Option Str := none
  query_cache : Option QueryCache := none
  sql_error : Option (Option Str) := none

/-- `execute_and_cache` (`nodes/sql_executor.py`).  `hash8` is the fingerprint
oracle (the first 8 hex characters of the MD5 of the statement text), `now` the
wall-clock oracle for `datetime.now()`, and `engine` the query-engine outcome:
`Except.ok (rows, columns)` with the rows already converted to JSON-safe
values, or `Except.error detail` when execution raised. -/
def execute_and_cache (hash8 : Str → Str) (now : Nat)
    (engine : Except Str (List Row × List Str)) (st : ChatbotState) : ExecutorUpdate :=
  let sql := st.generated_sql.getD []
  match engine with
  | .ok (rows, columns) =>
    let query_id := hash8 sql
    let cache_entry : CacheEntry :=
      { sql := sql, results := rows, timestamp := now,
        natural_query := pyOrStr st.resolved_query st.user_query,
        assumptions := st.assumptions_made }
    { query_results := some (some rows), row_count := some rows.length,
      column_names := some columns, current_query_id := some query_id,
      query_cache := some (updateQueryCache st.query_cache query_id cache_entry),
      sql_error := some none }
  | .error e =>
    { query_results := some none,
      sql_error := some (some (("Execution failed: ".data) ++ e)),
      row_count := some 0, column_names := some [] }

/-- Merge an executor partial update into the working state, as the state graph
does: a key absent from the update leaves the state field unchanged. -/
def applyExecutorUpdate (st : ChatbotState) (u : ExecutorUpdate) : ChatbotState :=
  { st with
    query_results := u.query_results.getD st.query_results,
    row_count := u.row_count.getD st.row_count,
    column_names := u.column_names.getD st.column_names,
    current_query_id :=
      match u.current_query_id with
      | some q => some q
      | none => st.current_query_id,
    query_cache := u.query_cache.getD st.query_cache,
    sql_error := u.sql_error.getD st.sql_error }

/-- The pair selected by `minTimestampPair` is among the scanned pairs. -/
theorem minTimestampPair_mem : ∀ (t : QueryCache) (p), minTimestampPair p t ∈ p :: t := by
  intro t
  induction t with
  | nil => intro p; simp [minTimestampPair]
  | cons q t ih =>
    intro p
    unfold minTimestampPair
    by_cases h : q.2.timestamp < p.2.timestamp
    · simp only [if_pos h]
      exact List.mem_cons_of_mem p (ih q)
    · simp only [if_neg h]
      rcases List.mem_cons.mp (ih p) with h1 | h1
      · simp [h1]
      · exact List.mem_cons_of_mem p (List.mem_cons_of_mem q h1)

/-- The pair selected by `minTimestampPair` has minimal timestamp among the
scanned pairs. -/
theorem minTimestampPair_le :
    ∀ (t : QueryCache) (p) (q), q ∈ p :: t →
      (minTimestampPair p t).2.timestamp ≤ q.2.timestamp := by
  intro t
  induction t with
  | nil =>
    intro p q hq
    rw [List.mem_singleton] at hq
    rw [hq]
    simp [minTimestampPair]
  | cons r t ih =>
    intro p q hq
    unfold minTimestampPair
    by_cases h : r.2.timestamp < p.2.timestamp
    · simp only [if_pos h]
      rcases List.mem_cons.mp hq with h1 | h1
      · rw [h1]
        exact le_of_lt (lt_of_le_of_lt (ih r r (List.mem_cons_self r t)) h)
      · exact ih r q h1
    · simp only [if_neg h]
      rcases List.mem_cons.mp hq with h1 | h1
      · rw [h1]
        exact ih p p (List.mem_cons_self p t)
      · rcases List.mem_cons.mp h1 with h2 | h2
        · rw [h2]
          exact le_trans (ih p p (List.mem_cons_self p t)) (Nat.le_of_not_lt h)
        · exact ih p q (List.mem_cons_of_mem p h2)

/-- Removing an element that fails the filter predicate strictly shrinks a list. -/
theorem length_filter_lt_of_mem {α : Type} (p : α → Bool) (l : List α) (a : α)
    (ha : a ∈ l) (hpa : p a = false) : (l.filter p).length < l.length := by
  induction l with
  | nil => cases ha
  | cons b t ih =>
    rcases List.mem_cons.mp ha with h | h
    · subst h
      rw [List.filter_cons, if_neg (by simp [hpa])]
      have := List.length_filter_le p t
      simp
      omega
    · have iht := ih h
      by_cases hb : p b = true
      · rw [List.filter_cons, if_pos hb]
        simp
        omega
      · rw [List.filter_cons, if_neg hb]
        simp
        omega

/-- The length of the inserted cache: unchanged on key replacement, one more on
a fresh key. -/
theorem cacheInsert_length (cache : QueryCache) (k : Str) (v : CacheEntry) :
    (cacheInsert cache k v).length = cache.length ∨
    (cacheInsert cache k v).length = cache.length + 1 := by
  unfold cacheInsert
  split
  · left; simp
  · right; simp

/-- One executor cache step keeps the cache within the capacity 10. -/
theorem updateQueryCache_length_le (cache : QueryCache) (k : Str) (v : CacheEntry)
    (h : cache.length ≤ 10) : (updateQueryCache cache k v).length ≤ 10 := by
  unfold updateQueryCache
  dsimp only
  split
  · rename_i hgt
    have hlen : (cacheInsert cache k v).length ≤ 11 := by
      rcases cacheInsert_length cache k v with hl | hl <;> omega
    rcases hu : cacheInsert cache k v with _ | ⟨p, t⟩
    · rw [hu] at hgt
      simp at hgt
    · have hmem : minTimestampPair p t ∈ p :: t := minTimestampPair_mem t p
      have hdel := length_filter_lt_of_mem
        (fun q => !(q.1 = (minTimestampPair p t).1 : Bool))
        (p :: t) (minTimestampPair p t) hmem (by simp)
      rw [hu] at hlen
      have hok : cacheOldestKey (p :: t) = (minTimestampPair p t).1 := rfl
      rw [hok]
      unfold cacheDelete
      omega
  · rename_i hle
    omega

/-- Association lists with pairwise-distinct keys (the dict invariant). -/
abbrev keysDistinct (c : QueryCache) : Prop := c.Pairwise (fun a b => a.1 ≠ b.1)

/-- In a keys-distinct cache, equal keys force equal pairs. -/
theorem eq_of_keysDistinct :
    ∀ (c : QueryCache), keysDistinct c → ∀ p q, p ∈ c → q ∈ c → p.1 = q.1 → p = q := by
  intro c
  induction c with
  | nil => intro _ p q hp _ _; cases hp
  | cons r t ih =>
    intro hn p q hp hq hk
    have hn' := List.pairwise_cons.mp hn
    rcases List.mem_cons.mp hp with h1 | h1 <;> rcases List.mem_cons.mp hq with h2 | h2
    · rw [h1, h2]
    · subst h1
      exact absurd hk (hn'.1 q h2)
    · subst h2
      exact absurd hk.symm (hn'.1 p h1)
    · exact ih hn'.2 p q h1 h2 hk

/-- Deleting the key of a member of a keys-distinct cache removes exactly one
pair. -/
theorem cacheDelete_length_keysDistinct :
    ∀ (c : QueryCache) (p : Str × CacheEntry), keysDistinct c → p ∈ c →
      (cacheDelete c p.1).length + 1 = c.length := by
  intro c
  induction c with
  | nil => intro p _ hp; cases hp
  | cons r t ih =>
    intro p hn hp
    have hn' := List.pairwise_cons.mp hn
    rcases List.mem_cons.mp hp with h1 | h1
    · subst h1
      have hrest : t.filter (fun q => !(q.1 = p.1 : Bool)) = t := by
        refine List.filter_eq_self.mpr ?_
        intro q hq
        have hne : q.1 ≠ p.1 := (hn'.1 q hq).symm
        simp [hne]
      unfold cacheDelete
      rw [List.filter_cons]
      simp [hrest]
    · have hrk : r.1 ≠ p.1 := hn'.1 p h1
      have iht := ih p hn'.2 h1
      unfold cacheDelete at iht ⊢
      rw [List.filter_cons]
      simp only [if_pos (by simp [hrk] : (!(r.1 = p.1 : Bool)) = true)]
      simp
      omega

/-- A member of the cache that is not the selected minimum survives the
deletion, in a keys-distinct cache. -/
theorem mem_cacheDelete_of_ne {c : QueryCache} {p q : Str × CacheEntry}
    (hn : keysDistinct c) (hp : p ∈ c) (hq : q ∈ c) (hne : q ≠ p) :
    q ∈ cacheDelete c p.1 := by
  unfold cacheDelete
  refine List.mem_filter.mpr ⟨hq, ?_⟩
  have : q.1 ≠ p.1 := fun hk => hne (eq_of_keysDistinct c hn q p hq hp hk)
  simp [this]

/-- Claim C3: starting from a cache of size at most 10, the executor's cache
step (insertion followed by conditional pruning) yields a cache of size at most
10 — both for the cache-maintenance function and through `execute_and_cache`'s
returned partial update; when eviction occurs (the inserted cache exceeds 10
entries) the removed entry is exactly the entry with minimal timestamp among
those present (for a cache with the dict invariant of distinct keys); and any
sequence of successful executions keeps the cache at size at most 10. -/
theorem c3_cache_capacity_and_eviction :
    (∀ (cache : QueryCache) (k : Str) (v : CacheEntry),
      cache.length ≤ 10 → (updateQueryCache cache k v).length ≤ 10) ∧
    (∀ (hash8 : Str → Str) (now : Nat) (rows : List Row) (cols : List Str) (st : ChatbotState),
      st.query_cache.length ≤ 10 →
      ∃ c, (execute_and_cache hash8 now (Except.ok (rows, cols)) st).query_cache = some c ∧
        c.length ≤ 10) ∧
    (∀ (cache : QueryCache) (k : Str) (v : CacheEntry),
      keysDistinct (cacheInsert cache k v) →
      (cacheInsert cache k v).length > 10 →
      ∃ m, m ∈ cacheInsert cache k v ∧
        (∀ q ∈ cacheInsert cache k v, m.2.timestamp ≤ q.2.timestamp) ∧
        m ∉ updateQueryCache cache k v ∧
        (∀ q ∈ cacheInsert cache k v, q ≠ m → q ∈ updateQueryCache cache k v) ∧
        (updateQueryCache cache k v).length + 1 = (cacheInsert cache k v).length) ∧
    (∀ (steps : List (Str × CacheEntry)) (cache0 : QueryCache),
      cache0.length ≤ 10 →
      (steps.foldl (fun c kv => updateQueryCache c kv.1 kv.2) cache0).length ≤ 10) := by
  refine ⟨updateQueryCache_length_le, ?_, ?_, ?_⟩
  · intro hash8 now rows cols st h
    exact ⟨_, rfl, updateQueryCache_length_le _ _ _ h⟩
  · intro cache k v hn hgt
    rcases hu : cacheInsert cache k v with _ | ⟨p, t⟩
    · rw [hu] at hgt
      simp at hgt
    · rw [hu] at hn hgt
      have hmem := minTimestampPair_mem t p
      have hupd : updateQueryCache cache k v =
          cacheDelete (p :: t) (cacheOldestKey (p :: t)) := by
        unfold updateQueryCache
        dsimp only
        rw [hu, if_pos hgt]
      have hok : cacheOldestKey (p :: t) = (minTimestampPair p t).1 := rfl
      refine ⟨minTimestampPair p t, hmem, fun q hq => minTimestampPair_le t p q hq, ?_, ?_, ?_⟩
      · rw [hupd, hok]
        simp [cacheDelete]
      · intro q hq hne
        rw [hupd, hok]
        exact mem_cacheDelete_of_ne hn hmem hq hne
      · rw [hupd, hok]
        exact cacheDelete_length_keysDistinct (p :: t) (minTimestampPair p t) hn hmem
  · intro steps
    induction steps with
    | nil => intro cache0 h; simpa using h
    | cons kv rest ih =>
      intro cache0 h
      simpa using ih (updateQueryCache cache0 kv.1 kv.2)
        (updateQueryCache_length_le _ _ _ h)

/-- A distinct-keyed ten-entry cache for the eviction witness. -/
def c3TestCache : QueryCache :=
  (List.range 10).map (fun i =>
    (List.replicate i 'x', { sql := [], results := [], timestamp := i + 1,
                             natural_query := [], assumptions := [] }))

/-- The fresh entry inserted in the eviction witness: its key is distinct from
every key of `c3TestCache`. -/
def c3TestEntry : CacheEntry :=
  { sql := "SELECT 1".data, results := [], timestamp := 11,
    natural_query := [], assumptions := [] }

/-- Witness for `c3_cache_capacity_and_eviction`: inserting an 11th entry into
a full distinct-keyed cache evicts exactly the oldest entry. -/
theorem c3_cache_capacity_and_eviction_witness :
    (c3TestCache.length ≤ 10 ∧
      keysDistinct (cacheInsert c3TestCache (List.replicate 11 'y') c3TestEntry) ∧
      (cacheInsert c3TestCache (List.replicate 11 'y') c3TestEntry).length > 10) ∧
    ((updateQueryCache c3TestCache (List.replicate 11 'y') c3TestEntry).length ≤ 10 ∧
      ∃ m, m ∈ cacheInsert c3TestCache (List.replicate 11 'y') c3TestEntry ∧
        (∀ q ∈ cacheInsert c3TestCache (List.replicate 11 'y') c3TestEntry,
          m.2.timestamp ≤ q.2.timestamp) ∧
        m ∉ updateQueryCache c3TestCache (List.replicate 11 'y') c3TestEntry ∧
        (∀ q ∈ cacheInsert c3TestCache (List.replicate 11 'y') c3TestEntry,
          q ≠ m → q ∈ updateQueryCache c3TestCache (List.replicate 11 'y') c3TestEntry) ∧
        (updateQueryCache c3TestCache (List.replicate 11 'y') c3TestEntry).length + 1 =
          (cacheInsert c3TestCache (List.replicate 11 'y') c3TestEntry).length) :=
  ⟨⟨by decide, by decide, by decide⟩,
    ⟨c3_cache_capacity_and_eviction.1 c3TestCache (List.replicate 11 'y') c3TestEntry (by decide),
      c3_cache_capacity_and_eviction.2.2.1 c3TestCache (List.replicate 11 'y') c3TestEntry
        (by decide) (by decide)⟩⟩

/-- Claim C4: when the query engine raises, `execute_and_cache` returns exactly
the failure update `{query_results = None, row_count = 0, column_names = [],
sql_error = "Execution failed: <detail>"}` — the exception does not propagate —
and that update contains neither `current_query_id` nor `query_cache`, so
merging it leaves the cache and the current result id unchanged;
`current_query_id` is present exactly on the success path, where it carries the
statement fingerprint. -/
theorem c4_executor_failure_atomicity :
    (∀ (hash8 : Str → Str) (now : Nat) (e : Str) (st : ChatbotState),
      execute_and_cache hash8 now (Except.error e) st =
        { query_results := some none, row_count := some 0, column_names := some [],
          sql_error := some (some (("Execution failed: ".data) ++ e)),
          current_query_id := none, query_cache := none }) ∧
    (∀ (hash8 : Str → Str) (now : Nat) (e : Str) (st : ChatbotState),
      (applyExecutorUpdate st (execute_and_cache hash8 now (Except.error e) st)).query_cache =
        st.query_cache ∧
      (applyExecutorUpdate st (execute_and_cache hash8 now (Except.error e) st)).current_query_id =
        st.current_query_id) ∧
    (∀ (hash8 : Str → Str) (now : Nat) (e : Str) (st : ChatbotState),
      (execute_and_cache hash8 now (Except.error e) st).current_query_id = none) ∧
    (∀ (hash8 : Str → Str) (now : Nat) (rows : List Row) (cols : List Str) (st : ChatbotState),
      (execute_and_cache hash8 now (Except.ok (rows, cols)) st).current_query_id =
        some (hash8 (st.generated_sql.getD []))) :=
  ⟨fun _ _ _ _ => rfl, fun _ _ _ _ => ⟨rfl, rfl⟩, fun _ _ _ _ => rfl, fun _ _ _ _ _ => rfl⟩

/-! ### Result interpreter (`nodes/result_interpreter.py`) -/

/-- The partial update returned by `interpret_results`. -/
structure InterpreterUpdate where
  response_format : Str
  response_text : Str

/-- The fixed no-results message. -/
def NO_RESULTS_TEXT : Str :=
  ("The query returned no results. This might mean there's no data matching " ++
   "your criteria, or the filters might be too restrictive.").data

/-- `interpret_results` (`nodes/result_interpreter.py`), paired with whether the
language-model gateway was called.  `llmContent` is the gateway's summary text
(used only on the non-empty path).  `state.get("query_results", [])` may be the
key's `None` value or an absent key; both are falsy like the empty list, so the
model reads the rows through `getD []`. -/
def interpret_results (llmContent : Str) (st : ChatbotState) : InterpreterUpdate × Bool :=
  let results := st.query_results.getD []
  if results.isEmpty || st.row_count == 0 then
    (⟨"simple".data, NO_RESULTS_TEXT⟩, false)
  else
    let is_simple := st.row_count == 1 && decide (st.column_names.length ≤ 2) &&
      st.column_names.all (fun c => pyIsScalar (rowGet (results.headD []) c))
    (⟨if is_simple then "simple".data else "table".data, pyStrip llmContent⟩, true)

/-- Claim C5: with no result rows (or `row_count = 0`) the interpreter
short-circuits to the fixed simple no-results update without a gateway call;
otherwise it calls the gateway and chooses `simple` exactly when there is one
row with at most two columns all of whose values are scalars, and `table` in
every other case. -/
theorem c5_interpreter_format :
    (∀ (llm : Str) (st : ChatbotState),
      st.query_results.getD [] = [] ∨ st.row_count = 0 →
      interpret_results llm st = (⟨"simple".data, NO_RESULTS_TEXT⟩, false)) ∧
    (∀ (llm : Str) (st : ChatbotState),
      st.query_results.getD [] ≠ [] → st.row_count ≠ 0 →
      ((interpret_results llm st).1.response_format = "simple".data ↔
        st.row_count = 1 ∧ st.column_names.length ≤ 2 ∧
        ∀ c ∈ st.column_names,
          pyIsScalar (rowGet ((st.query_results.getD []).headD []) c) = true) ∧
      ((interpret_results llm st).1.response_format = "simple".data ∨
        (interpret_results llm st).1.response_format = "table".data) ∧
      (interpret_results llm st).2 = true) := by
  constructor
  · intro llm st h
    rcases h with h | h <;>
      simp [interpret_results, h]
  · intro llm st hres hrc
    have hne : (st.query_results.getD []).isEmpty = false := by
      rcases hu : st.query_results.getD [] with _ | ⟨r, rs⟩
      · exact absurd hu hres
      · rfl
    have hrc' : (st.row_count == 0) = false := by
      simpa using hrc
    have hfmt : (interpret_results llm st).1.response_format =
        (if (st.row_count == 1 && decide (st.column_names.length ≤ 2) &&
            st.column_names.all
              (fun c => pyIsScalar (rowGet ((st.query_results.getD []).headD []) c))) = true
         then "simple".data else "table".data) := by
      unfold interpret_results
      dsimp only
      rw [hne, hrc']
      simp
    have hcall : (interpret_results llm st).2 = true := by
      unfold interpret_results
      dsimp only
      rw [hne, hrc']
      simp
    by_cases hs : (st.row_count == 1 && decide (st.column_names.length ≤ 2) &&
        st.column_names.all
          (fun c => pyIsScalar (rowGet ((st.query_results.getD []).headD []) c))) = true
    · rw [hfmt, if_pos hs]
      refine ⟨?_, Or.inl rfl, hcall⟩
      constructor
      · intro _
        simp only [Bool.and_eq_true, beq_iff_eq, decide_eq_true_eq, List.all_eq_true] at hs
        exact ⟨hs.1.1, hs.1.2, hs.2⟩
      · intro _
        rfl
    · rw [hfmt, if_neg hs]
      refine ⟨?_, Or.inr rfl, hcall⟩
      constructor
      · intro habs
        exact absurd habs (by decide)
      · intro hcond
        exfalso
        refine hs ?_
        simp only [Bool.and_eq_true, beq_iff_eq, decide_eq_true_eq, List.all_eq_true]
        exact ⟨⟨hcond.1, hcond.2.1⟩, hcond.2.2⟩

/-- Witness for `c5_interpreter_format`: a one-row, one-column scalar result is
simple, and an empty result short-circuits. -/
theorem c5_interpreter_format_witness :
    (({} : ChatbotState).query_results.getD [] = [] ∧
      interpret_results [] ({} : ChatbotState) = (⟨"simple".data, NO_RESULTS_TEXT⟩, false)) ∧
    (let st : ChatbotState :=
      { query_results := some [[(("n").data, PyVal.vInt 7)]], row_count := 1,
        column_names := [("n").data] }
     (interpret_results [] st).1.response_format = "simple".data) := by
  refine ⟨⟨rfl, c5_interpreter_format.1 [] ({} : ChatbotState) (Or.inl rfl)⟩, ?_⟩
  exact ((c5_interpreter_format.2 []
    { query_results := some [[(("n").data, PyVal.vInt 7)]], row_count := 1,
      column_names := [("n").data] }
    (by simp) (by simp)).1).mpr ⟨rfl, by simp, by decide⟩

/-! ### Context resolver (`nodes/context_resolver.py`) -/

/-- The partial update returned by `resolve_context`. -/
structure ResolverUpdate where
  resolved_query : Str
  referenced_query_id : Option Str

/-- `resolve_context` (`nodes/context_resolver.py`), paired with whether the
gateway was called.  `llmContent` is the gateway's rewritten standalone query
(used only when history is non-empty). -/
def resolve_context (llmContent : Str) (st : ChatbotState) : ResolverUpdate × Bool :=
  if st.conversation_history.isEmpty then
    (⟨st.user_query, none⟩, false)
  else
    let resolved := pyStrip llmContent
    let context_used := !(pyLower resolved == pyLower st.user_query)
    (⟨resolved, if context_used then st.current_query_id else none⟩, true)

/-- Claim C6: with empty history the resolver returns the query unchanged with
no referenced result id and no gateway call; with non-empty history it returns
the gateway's stripped rewrite and sets `referenced_query_id` to the state's
`current_query_id` exactly when the rewrite differs (case-insensitively) from
the original query, and to `None` when they coincide. -/
theorem c6_context_resolver :
    (∀ (llm : Str) (st : ChatbotState), st.conversation_history = [] →
      resolve_context llm st = (⟨st.user_query, none⟩, false)) ∧
    (∀ (llm : Str) (st : ChatbotState), st.conversation_history ≠ [] →
      (resolve_context llm st).1.resolved_query = pyStrip llm ∧
      (resolve_context llm st).2 = true ∧
      (pyLower (pyStrip llm) ≠ pyLower st.user_query →
        (resolve_context llm st).1.referenced_query_id = st.current_query_id) ∧
      (pyLower (pyStrip llm) = pyLower st.user_query →
        (resolve_context llm st).1.referenced_query_id = none)) := by
  constructor
  · intro llm st h
    simp [resolve_context, h]
  · intro llm st h
    have hne : st.conversation_history.isEmpty = false := by
      rcases hu : st.conversation_history with _ | _
      · exact absurd hu h
      · rfl
    unfold resolve_context
    rw [hne]
    refine ⟨rfl, rfl, ?_, ?_⟩
    · intro hdiff
      have : (pyLower (pyStrip llm) == pyLower st.user_query) = false := by
        simpa using hdiff
      simp [this]
    · intro heq
      have : (pyLower (pyStrip llm) == pyLower st.user_query) = true := by
        simpa using heq
      simp [this]

/-- Witness for `c6_context_resolver`: a rewritten query that differs from the
original propagates the current result id. -/
theorem c6_context_resolver_witness :
    (let st : ChatbotState :=
      { user_query := "What about iOS?".data,
        conversation_history := [("Android apps".data, "answer".data)],
        current_query_id := some ("abcd1234".data) }
     st.conversation_history ≠ [] ∧
     pyLower (pyStrip ("iOS apps count".data)) ≠ pyLower st.user_query ∧
     (resolve_context ("iOS apps count".data) st).1.referenced_query_id =
       some ("abcd1234".data)) := by
  refine ⟨by decide, by decide, ?_⟩
  exact ((c6_context_resolver.2 ("iOS apps count".data) _ (by decide)).2.2.1 (by decide))

/-! ### Conversation history persistence (`repositories/conversation.py`) -/

/-- `MAX_BOT_RESPONSE_LENGTH` in `repositories/conversation.py`. -/
def MAX_BOT_RESPONSE_LENGTH : Nat := 500

/-- The truncation marker appended by `add_turn`. -/
def ELLIPSIS_MARKER : Str := "...".data

/-- The `bot_response` value persisted by `ConversationRepository.add_turn`:
slice to the cap, appending the marker when the input was longer. -/
def add_turn_bot_response (bot_response : Str) : Str :=
  let truncated := bot_response.take MAX_BOT_RESPONSE_LENGTH
  if bot_response.length > MAX_BOT_RESPONSE_LENGTH then truncated ++ ELLIPSIS_MARKER
  else truncated

/-- A string starts with itself followed by anything. -/
theorem startsWith_append_self : ∀ (p rest : Str), startsWith p (p ++ rest) = true := by
  intro p
  induction p with
  | nil => intro rest; rfl
  | cons c p ih => intro rest; simp [startsWith, ih]

/-- Appending the marker makes the string end with the marker. -/
theorem endsWith_append (t m : Str) : endsWith m (t ++ m) = true := by
  unfold endsWith
  rw [List.reverse_append]
  exact startsWith_append_self m.reverse t.reverse

/-- Claim C7: a bot response longer than 500 characters is persisted with
length exactly `500 + |marker|` and ends with the ellipsis marker; a response
of at most 500 characters is persisted unchanged. -/
theorem c7_history_truncation :
    (∀ bot_response : Str, bot_response.length > 500 →
      (add_turn_bot_response bot_response).length = 500 + ELLIPSIS_MARKER.length ∧
      endsWith ELLIPSIS_MARKER (add_turn_bot_response bot_response) = true) ∧
    (∀ bot_response : Str, bot_response.length ≤ 500 →
      add_turn_bot_response bot_response = bot_response) := by
  constructor
  · intro bot h
    unfold add_turn_bot_response MAX_BOT_RESPONSE_LENGTH
    rw [if_pos (by omega)]
    constructor
    · simp
      omega
    · exact endsWith_append _ _
  · intro bot h
    unfold add_turn_bot_response MAX_BOT_RESPONSE_LENGTH
    rw [if_neg (by omega)]
    exact List.take_of_length_le h

/-- Witness for `c7_history_truncation`: a 501-character response is stored
with 503 characters ending in the marker; a short one is stored unchanged. -/
theorem c7_history_truncation_witness :
    ((List.replicate 501 'a').length > 500 ∧
      (add_turn_bot_response (List.replicate 501 'a')).length = 500 + ELLIPSIS_MARKER.length ∧
      endsWith ELLIPSIS_MARKER (add_turn_bot_response (List.replicate 501 'a')) = true) ∧
    (("ok".data).length ≤ 500 ∧ add_turn_bot_response ("ok".data) = "ok".data) :=
  ⟨⟨by rw [List.length_replicate]; decide,
     (c7_history_truncation.1 (List.replicate 501 'a') (by rw [List.length_replicate]; decide)).1,
     (c7_history_truncation.1 (List.replicate 501 'a') (by rw [List.length_replicate]; decide)).2⟩,
   ⟨by decide, c7_history_truncation.2 ("ok".data) (by decide)⟩⟩

/-! ### Slack Block Kit blocks

The shapes of blocks this service builds: `section` blocks carrying markdown
text, `context` blocks carrying a list of markdown elements, and `actions`
blocks carrying buttons `(action_id, value)`. -/

/-- One Slack Block Kit block as built by the formatter nodes. -/
inductive SlackBlock where
  | sectionBlock (text : Str)
  | contextBlock (texts : List Str)
  | actionsBlock (buttons : List (Str × Str))

/-! ### Decline terminal stage (`nodes/decline.py`) -/

/-- The fixed capability-description message (`DECLINE_MESSAGE`). -/
def DECLINE_MESSAGE : Str :=
  ("I'm focused on helping with app portfolio analytics!\n\n" ++
   "I can help you with questions about:\n" ++
   "• App installs and downloads\n" ++
   "• Revenue (in-app purchases & ads)\n" ++
   "• User acquisition costs\n" ++
   "• Performance by country or platform\n" ++
   "• Trends and comparisons over time\n\n" ++
   "What would you like to know about our apps?").data

/-- The partial update returned by `polite_decline`: the source returns only
`response_text` and `slack_blocks`.  The `conversation_history` field records
whether the update carries that key (`none` means the key is absent and the
state's history is left unchanged by the merge). -/
structure DeclineUpdate where
  response_text : Str
  slack_blocks : List SlackBlock
  conversation_history : Option (List (Str × Str)) := none

/-- `polite_decline` (`nodes/decline.py`): deterministic, no gateway call; the
returned dict has exactly the keys `response_text` and `slack_blocks`. -/
def polite_decline (st : ChatbotState) : DeclineUpdate :=
  { response_text := DECLINE_MESSAGE,
    slack_blocks := [SlackBlock.sectionBlock DECLINE_MESSAGE],
    conversation_history := none }

/-- Claim C9 concerns `polite_decline`; the code diverges from the claim's
final conjunct: the stage is deterministic (a function of no oracle — it takes
no gateway input at all) and returns the fixed capability message, but its
update carries no `conversation_history` key, so the `{user_query,
response_text}` pair is never appended — including on the repository's own
test input (`test_polite_decline_updates_history`), shown here concretely. -/
theorem c9_decline_no_history_append :
    (∀ st : ChatbotState, polite_decline st =
      { response_text := DECLINE_MESSAGE,
        slack_blocks := [SlackBlock.sectionBlock DECLINE_MESSAGE],
        conversation_history := none }) ∧
    (polite_decline
        { user_query := "What's the weather?".data, conversation_history := [] }).response_text =
      DECLINE_MESSAGE ∧
    (polite_decline
        { user_query := "What's the weather?".data,
          conversation_history := [] }).conversation_history = none :=
  ⟨fun _ => rfl, rfl, rfl⟩

/-! ### Intent classifier (`nodes/intent_router.py`) -/

/-- The export-intent keyword set (`csv_keywords`). -/
def CSV_KEYWORDS : List Str :=
  ["export".data, "csv".data, "download".data, "save as".data, "get file".data]

/-- The show-query-intent keyword set (`sql_keywords`). -/
def SQL_KEYWORDS : List Str :=
  ["show sql".data, "show me the sql".data, "what sql".data, "sql query".data,
   "sql statement".data, "what query".data, "see the query".data]

/-- The partial update returned by `classify_intent`. -/
structure IntentUpdate where
  intent : Str
  confidence : Rat

/-- `classify_intent` (`nodes/intent_router.py`), paired with whether the
gateway was called.  The CSV-keyword fast path is checked first, then the
SQL-keyword fast path, both on the lowercased, stripped query; otherwise the
gateway is called with `content` its response text, and `jsonParse content` is
the JSON oracle carrying `(intent, confidence)` with the code's defaults
applied, or `none` on a `JSONDecodeError`. -/
def classify_intent (jsonParse : Str → Option (Str × Rat)) (content : Str)
    (st : ChatbotState) : IntentUpdate × Bool :=
  let query_lower := pyStrip (pyLower st.user_query)
  if CSV_KEYWORDS.any (fun kw => strContains kw query_lower) then
    (⟨"export_csv".data, 0.95⟩, false)
  else if SQL_KEYWORDS.any (fun kw => strContains kw query_lower) then
    (⟨"show_sql".data, 0.95⟩, false)
  else
    match jsonParse content with
    | some (intent, confidence) => (⟨intent, confidence⟩, true)
    | none => (⟨"analytics_query".data, 0.5⟩, true)

/-- Characterisation of `startsWith` as prefix decomposition. -/
theorem startsWith_iff : ∀ (p s : Str), startsWith p s = true ↔ ∃ t, s = p ++ t := by
  intro p
  induction p with
  | nil =>
    intro s
    simp [startsWith]
  | cons c p ih =>
    intro s
    cases s with
    | nil => simp [startsWith]
    | cons a s =>
      simp only [startsWith, Bool.and_eq_true, decide_eq_true_eq, ih, List.cons_append,
        List.cons.injEq]
      constructor
      · rintro ⟨rfl, t, rfl⟩
        exact ⟨t, rfl, rfl⟩
      · rintro ⟨t, rfl, rfl⟩
        exact ⟨rfl, t, rfl⟩

/-- Characterisation of `strContains` as substring decomposition. -/
theorem strContains_iff : ∀ (n h : Str), strContains n h = true ↔ ∃ u t, h = u ++ n ++ t := by
  intro n h
  induction h with
  | nil =>
    simp only [strContains, List.isEmpty_iff]
    constructor
    · intro hn
      exact ⟨[], [], by simp [hn]⟩
    · rintro ⟨u, t, hut⟩
      rcases List.append_eq_nil.mp hut.symm with ⟨h1, h2⟩
      exact (List.append_eq_nil.mp h1).2
  | cons a h ih =>
    simp only [strContains, Bool.or_eq_true, ih, startsWith_iff]
    constructor
    · rintro (⟨t, ht⟩ | ⟨u, t, rfl⟩)
      · exact ⟨[], t, by simpa using ht⟩
      · exact ⟨a :: u, t, by simp⟩
    · rintro ⟨u, t, hut⟩
      cases u with
      | nil =>
        left
        exact ⟨t, by simpa using hut⟩
      | cons b u =>
        right
        rw [List.cons_append, List.cons_append] at hut
        injection hut with h1 h2
        exact ⟨u, t, by simpa using h2⟩

/-- Substring containment transfers to reversed strings. -/
theorem strContains_reverse_of {n h : Str} (hc : strContains n h = true) :
    strContains n.reverse h.reverse = true := by
  rw [strContains_iff] at hc ⊢
  obtain ⟨u, t, rfl⟩ := hc
  exact ⟨t.reverse, u.reverse, by simp⟩

/-- Containment of a needle with a non-whitespace head survives stripping
leading whitespace. -/
theorem strContains_dropWhile {c : Char} {kw l : Str} (hc : isPySpace c = false)
    (h : strContains (c :: kw) l = true) :
    strContains (c :: kw) (l.dropWhile isPySpace) = true := by
  induction l with
  | nil => simpa [strContains] using h
  | cons a t ih =>
    rw [List.dropWhile_cons]
    by_cases ha : isPySpace a = true
    · rw [if_pos ha]
      apply ih
      rw [strContains, Bool.or_eq_true] at h
      rcases h with h1 | h1
      · exfalso
        simp only [startsWith, Bool.and_eq_true, decide_eq_true_eq] at h1
        rw [h1.1] at hc
        rw [hc] at ha
        exact Bool.noConfusion ha
      · exact h1
    · rw [if_neg ha]
      exact h

/-- The needle's first character is not whitespace. -/
def headNotSpace (kw : Str) : Bool :=
  match kw with
  | [] => false
  | c :: _ => !isPySpace c

/-- Containment of a needle whose two ends are non-whitespace survives
Python `str.strip()`. -/
theorem strContains_pyStrip {kw l : Str} (h1 : headNotSpace kw = true)
    (h2 : headNotSpace kw.reverse = true) (h : strContains kw l = true) :
    strContains kw (pyStrip l) = true := by
  rcases hkw : kw with _ | ⟨c, kt⟩
  · rw [hkw] at h1
    exact absurd h1 (by simp [headNotSpace])
  · rw [hkw] at h1 h2 h
    obtain ⟨d, rt, hrev⟩ : ∃ d rt, (c :: kt).reverse = d :: rt := by
      cases hr : (c :: kt).reverse with
      | nil => exact absurd (congrArg List.length hr) (by simp)
      | cons d rt => exact ⟨d, rt, rfl⟩
    have hc : isPySpace c = false := by simpa [headNotSpace] using h1
    have hd : isPySpace d = false := by
      rw [hrev] at h2
      simpa [headNotSpace] using h2
    unfold pyStrip
    have s1 : strContains (c :: kt) (l.dropWhile isPySpace) = true :=
      strContains_dropWhile hc h
    have s2 := strContains_reverse_of s1
    rw [hrev] at s2
    have s3 := strContains_dropWhile hd s2
    rw [← hrev] at s3
    have s4 := strContains_reverse_of s3
    simpa using s4

/-- Claim C10: when the lowercased query contains both an export-intent keyword
and a show-query-intent keyword, the fast path returns `export_csv` with
confidence 0.95 and no gateway call — the CSV keyword set is checked first, so
the show-query branch is unreachable for such queries. -/
theorem c10_intent_fastpath_export_priority :
    ∀ (jsonParse : Str → Option (Str × Rat)) (content : Str) (st : ChatbotState),
      (∃ kw ∈ CSV_KEYWORDS, strContains kw (pyLower st.user_query) = true) →
      (∃ kw ∈ SQL_KEYWORDS, strContains kw (pyLower st.user_query) = true) →
      classify_intent jsonParse content st = (⟨"export_csv".data, 0.95⟩, false) := by
  intro jsonParse content st hcsv _
  obtain ⟨kw, hmem, hkw⟩ := hcsv
  have hends : headNotSpace kw = true ∧ headNotSpace kw.reverse = true := by
    have hall : ∀ kw' ∈ CSV_KEYWORDS,
        headNotSpace kw' = true ∧ headNotSpace kw'.reverse = true := by decide
    exact hall kw hmem
  have hstrip : strContains kw (pyStrip (pyLower st.user_query)) = true :=
    strContains_pyStrip hends.1 hends.2 hkw
  have hany : CSV_KEYWORDS.any
      (fun kw' => strContains kw' (pyStrip (pyLower st.user_query))) = true :=
    List.any_eq_true.mpr ⟨kw, hmem, hstrip⟩
  unfold classify_intent
  dsimp only
  rw [hany]
  rfl

/-- Witness for `c10_intent_fastpath_export_priority`: a query containing both
`export`/`csv` and `show sql` takes the export fast path. -/
theorem c10_intent_fastpath_export_priority_witness :
    ((∃ kw ∈ CSV_KEYWORDS,
        strContains kw (pyLower ("Export CSV and show sql please".data)) = true) ∧
      (∃ kw ∈ SQL_KEYWORDS,
        strContains kw (pyLower ("Export CSV and show sql please".data)) = true)) ∧
    classify_intent (fun _ => none) []
      { user_query := "Export CSV and show sql please".data } =
      (⟨"export_csv".data, 0.95⟩, false) :=
  ⟨⟨by decide, by decide⟩,
    c10_intent_fastpath_export_priority (fun _ => none) []
      { user_query := "Export CSV and show sql please".data } (by decide) (by decide)⟩

/-! ### Slack transport limits (`services/slack.py`) -/

/-- `SLACK_MAX_TEXT_LENGTH`. -/
def SLACK_MAX_TEXT_LENGTH : Nat := 40000

/-- `SLACK_MAX_BLOCK_TEXT_LENGTH`. -/
def SLACK_MAX_BLOCK_TEXT_LENGTH : Nat := 3000

/-- `SLACK_MAX_BLOCKS`. -/
def SLACK_MAX_BLOCKS : Nat := 50

/-- `TRUNCATION_NOTICE`. -/
def TRUNCATION_NOTICE : Str :=
  "\n\n_...table truncated. Click *Export CSV* for complete data._".data

/-- Python `text.split("\n")`. -/
def splitOnNL : Str → List Str
  | [] => [[]]
  | c :: t =>
    match splitOnNL t with
    | [] => [[c]]
    | h :: r => if c = '\n' then [] :: h :: r else (c :: h) :: r

/-- Python `"\n".join(lines)`. -/
def joinNL : List Str → Str
  | [] => []
  | [l] => l
  | l :: l' :: ls => l ++ '\n' :: joinNL (l' :: ls)

/-- The greedy line loop of `_truncate_block_text`: keep accumulating lines
while `current_length + len(line) + 1` stays within the budget, then stop. -/
def takeLines (avail : Nat) : Nat → List Str → List Str
  | _, [] => []
  | cur, l :: ls =>
    if cur + l.length + 1 > avail then []
    else l :: takeLines avail (cur + l.length + 1) ls

/-- Python `s.rfind(c)`: index of the last occurrence, `none` when absent. -/
def lastIndexOf (c : Char) (s : Str) : Option Nat :=
  match s.reverse.findIdx? (fun x => x = c) with
  | some j => some (s.length - 1 - j)
  | none => none

/-- `_truncate_block_text` (`services/slack.py`).  For code-fenced (table)
blocks it truncates at a line boundary, re-closes the fence when needed, and
appends the notice; otherwise it truncates at a word boundary when the last
space falls past 80% of the budget (the source compares
`last_space > available_length * 0.8`; with the notice 61 characters long the
budget is 2939 and `2939 * 0.8 = 2351.2` is not an integer, so the
floating-point comparison agrees with the exact comparison `5*i > 4*2939`
modelled here), and appends the notice. -/
def truncate_block_text (text : Str) : Str :=
  if text.length ≤ SLACK_MAX_BLOCK_TEXT_LENGTH then text
  else
    let available_length := SLACK_MAX_BLOCK_TEXT_LENGTH - TRUNCATION_NOTICE.length
    if startsWith ("```".data) text then
      let kept := takeLines (available_length - 10) 0 (splitOnNL text)
      let truncated := joinNL kept
      let closed :=
        if endsWith ("```".data) truncated then truncated
        else truncated ++ ('\n' :: "```".data)
      closed ++ TRUNCATION_NOTICE
    else
      let truncated := text.take available_length
      let final :=
        match lastIndexOf ' ' truncated with
        | some i => if 5 * i > 4 * available_length then truncated.take i else truncated
        | none => truncated
      final ++ TRUNCATION_NOTICE

/-- The per-block step of `_prepare_blocks_for_slack`: truncate each
section/context text that exceeds the per-block limit. -/
def prepare_block (b : SlackBlock) : SlackBlock :=
  match b with
  | .sectionBlock t =>
    .sectionBlock (if t.length > SLACK_MAX_BLOCK_TEXT_LENGTH then truncate_block_text t else t)
  | .contextBlock ts =>
    .contextBlock (ts.map
      (fun t => if t.length > SLACK_MAX_BLOCK_TEXT_LENGTH then truncate_block_text t else t))
  | .actionsBlock bs => .actionsBlock bs

/-- `_prepare_blocks_for_slack`: keep at most `SLACK_MAX_BLOCKS` blocks
(dropping the tail), truncating oversized texts in the kept ones. -/
def prepare_blocks_for_slack (blocks : List SlackBlock) : List SlackBlock :=
  (blocks.take SLACK_MAX_BLOCKS).map prepare_block

/-- The message-text truncation in `SlackService.send_message`. -/
def send_message_text (text : Str) : Str :=
  if text.length > SLACK_MAX_TEXT_LENGTH then
    text.take (SLACK_MAX_TEXT_LENGTH - 3) ++ ("...".data)
  else text

/-- The texts carried by a block (section text, or context element texts). -/
def blockTexts : SlackBlock → List Str
  | .sectionBlock t => [t]
  | .contextBlock ts => ts
  | .actionsBlock _ => []

/-- The weight of a line list: each line plus its joining newline. -/
def sumLen (ls : List Str) : Nat := (ls.map (fun l => l.length + 1)).sum

/-- Length of a newline-join, in terms of the weight. -/
theorem joinNL_length : ∀ ls : List Str, ls ≠ [] → (joinNL ls).length + 1 = sumLen ls := by
  intro ls
  induction ls with
  | nil => intro h; exact absurd rfl h
  | cons l ls ih =>
    intro _
    cases ls with
    | nil => simp [joinNL, sumLen]
    | cons l' ls' =>
      have := ih (by simp)
      simp only [joinNL, sumLen, List.map_cons, List.sum_cons] at *
      simp only [List.length_append, List.length_cons]
      omega

/-- The greedy line loop never exceeds its budget. -/
theorem takeLines_weight : ∀ (ls : List Str) (avail cur : Nat),
    takeLines avail cur ls = [] ∨ sumLen (takeLines avail cur ls) + cur ≤ avail := by
  intro ls
  induction ls with
  | nil => intro avail cur; left; rfl
  | cons l ls ih =>
    intro avail cur
    rw [takeLines]
    by_cases hc : cur + l.length + 1 > avail
    · rw [if_pos hc]
      left
      rfl
    · rw [if_neg hc]
      right
      rcases ih avail (cur + l.length + 1) with h | h
      · rw [h]
        simp only [sumLen, List.map_cons, List.sum_cons, List.map_nil, List.sum_nil]
        omega
      · simp only [sumLen, List.map_cons, List.sum_cons] at h ⊢
        omega

/-- The length of the truncation notice. -/
theorem truncation_notice_length : TRUNCATION_NOTICE.length = 61 := by decide

/-- Numeric value of the code-path budget `available_length - 10`. -/
theorem available_minus_ten :
    SLACK_MAX_BLOCK_TEXT_LENGTH - TRUNCATION_NOTICE.length - 10 = 2929 := by decide

/-- Numeric value of the word-path budget `available_length`. -/
theorem available_length_eq :
    SLACK_MAX_BLOCK_TEXT_LENGTH - TRUNCATION_NOTICE.length = 2939 := by decide

/-- Full behaviour of `_truncate_block_text` on oversized texts: the result
fits the per-block limit, always ends with the truncation notice, and for
code-fenced blocks the part before the notice re-closes the fence. -/
theorem truncate_block_text_spec (text : Str) (h : text.length > 3000) :
    (truncate_block_text text).length ≤ 3000 ∧
    endsWith TRUNCATION_NOTICE (truncate_block_text text) = true ∧
    (startsWith ("```".data) text = true →
      ∃ s, truncate_block_text text = s ++ TRUNCATION_NOTICE ∧
        endsWith ("```".data) s = true) := by
  have hN := truncation_notice_length
  have hnot : ¬(text.length ≤ SLACK_MAX_BLOCK_TEXT_LENGTH) := by
    unfold SLACK_MAX_BLOCK_TEXT_LENGTH
    omega
  unfold truncate_block_text
  rw [if_neg hnot]
  dsimp only
  rw [available_minus_ten, available_length_eq]
  by_cases hcode : startsWith ("```".data) text = true
  · rw [if_pos hcode]
    have hjoin : (joinNL (takeLines 2929 0 (splitOnNL text))).length ≤ 2928 := by
      rcases hk : takeLines 2929 0 (splitOnNL text) with _ | ⟨l, ls⟩
      · simp [joinNL]
      · rcases takeLines_weight (splitOnNL text) 2929 0 with hw | hw
        · rw [hk] at hw
          cases hw
        · rw [hk] at hw
          have := joinNL_length (l :: ls) (by simp)
          omega
    have hclosed : ∀ closed : Str, closed.length ≤ 2939 →
        endsWith ("```".data) closed = true →
        ((closed ++ TRUNCATION_NOTICE).length ≤ 3000 ∧
          endsWith TRUNCATION_NOTICE (closed ++ TRUNCATION_NOTICE) = true ∧
          (startsWith ("```".data) text = true →
            ∃ s, closed ++ TRUNCATION_NOTICE = s ++ TRUNCATION_NOTICE ∧
              endsWith ("```".data) s = true)) := by
      intro closed hlen hfence
      refine ⟨?_, endsWith_append _ _, fun _ => ⟨closed, rfl, hfence⟩⟩
      rw [List.length_append, hN]
      omega
    by_cases hfence : endsWith ("```".data) (joinNL (takeLines 2929 0 (splitOnNL text))) = true
    · rw [if_pos hfence]
      exact hclosed _ (by omega) hfence
    · rw [if_neg hfence]
      refine hclosed _ ?_ ?_
      · rw [List.length_append]
        simp only [List.length_cons, List.length_nil]
        omega
      · rw [List.append_cons]
        exact endsWith_append _ _
  · rw [if_neg hcode]
    have hfin : ∀ final : Str, final.length ≤ 2939 →
        ((final ++ TRUNCATION_NOTICE).length ≤ 3000 ∧
          endsWith TRUNCATION_NOTICE (final ++ TRUNCATION_NOTICE) = true ∧
          (startsWith ("```".data) text = true →
            ∃ s, final ++ TRUNCATION_NOTICE = s ++ TRUNCATION_NOTICE ∧
              endsWith ("```".data) s = true)) := by
      intro final hlen
      refine ⟨?_, endsWith_append _ _, fun habs => absurd habs hcode⟩
      rw [List.length_append, hN]
      omega
    have htake : (text.take 2939).length ≤ 2939 := by
      rw [List.length_take]
      omega
    rcases hidx : lastIndexOf ' ' (text.take 2939) with _ | i
    · dsimp only
      exact hfin _ htake
    · dsimp only
      by_cases hcut : 5 * i > 4 * 2939
      · rw [if_pos hcut]
        refine hfin _ ?_
        rw [List.length_take]
        omega
      · rw [if_neg hcut]
        exact hfin _ htake

/-- Claim C8: before blocks reach the transport, at most 50 blocks are kept
(the tail is dropped) and every kept section/context text fits the 3000
character per-block limit; an oversized block text is truncated to at most
3000 characters ending in the fixed truncation notice, with the code fence
re-closed for code-fenced blocks (at a line boundary) and a word-boundary cut
otherwise; and the total message text is truncated with an ellipsis to at most
40000 characters. -/
theorem c8_slack_transport_limits :
    (∀ blocks : List SlackBlock,
      (prepare_blocks_for_slack blocks).length ≤ 50 ∧
      prepare_blocks_for_slack blocks = (blocks.take 50).map prepare_block) ∧
    (∀ blocks : List SlackBlock, ∀ b ∈ prepare_blocks_for_slack blocks,
      ∀ t ∈ blockTexts b, t.length ≤ 3000) ∧
    (∀ text : Str, text.length > 3000 →
      (truncate_block_text text).length ≤ 3000 ∧
      endsWith TRUNCATION_NOTICE (truncate_block_text text) = true ∧
      (startsWith ("```".data) text = true →
        ∃ s, truncate_block_text text = s ++ TRUNCATION_NOTICE ∧
          endsWith ("```".data) s = true)) ∧
    (∀ text : Str, (send_message_text text).length ≤ 40000 ∧
      (text.length > 40000 →
        send_message_text text = text.take 39997 ++ ("...".data) ∧
        endsWith ("...".data) (send_message_text text) = true)) := by
  have hkeep : ∀ t : Str,
      (if t.length > SLACK_MAX_BLOCK_TEXT_LENGTH then truncate_block_text t else t).length ≤
        3000 := by
    intro t
    by_cases ht : t.length > SLACK_MAX_BLOCK_TEXT_LENGTH
    · rw [if_pos ht]
      exact (truncate_block_text_spec t (by unfold SLACK_MAX_BLOCK_TEXT_LENGTH at ht; omega)).1
    · rw [if_neg ht]
      unfold SLACK_MAX_BLOCK_TEXT_LENGTH at ht
      omega
  refine ⟨?_, ?_, truncate_block_text_spec, ?_⟩
  · intro blocks
    refine ⟨?_, rfl⟩
    unfold prepare_blocks_for_slack SLACK_MAX_BLOCKS
    rw [List.length_map]
    have := List.length_take_le 50 blocks
    omega
  · intro blocks b hb t ht
    unfold prepare_blocks_for_slack at hb
    obtain ⟨b0, _, rfl⟩ := List.mem_map.mp hb
    rcases b0 with t0 | ts0 | bs0
    · simp only [prepare_block, blockTexts, List.mem_singleton] at ht
      rw [ht]
      exact hkeep t0
    · simp only [prepare_block, blockTexts] at ht
      obtain ⟨t1, _, rfl⟩ := List.mem_map.mp ht
      exact hkeep t1
    · simp only [prepare_block, blockTexts] at ht
      cases ht
  · intro text
    unfold send_message_text SLACK_MAX_TEXT_LENGTH
    by_cases ht : text.length > 40000
    · rw [if_pos ht]
      refine ⟨?_, fun _ => ⟨rfl, endsWith_append _ _⟩⟩
      rw [List.length_append, List.length_take]
      have : (("...".data : Str)).length = 3 := rfl
      omega
    · rw [if_neg ht]
      exact ⟨by omega, fun habs => absurd habs ht⟩

/-- Witness for `c8_slack_transport_limits`: a 3001-character plain text is
truncated to the limit and ends with the notice. -/
theorem c8_slack_transport_limits_witness :
    (List.replicate 3001 'a').length > 3000 ∧
    (truncate_block_text (List.replicate 3001 'a')).length ≤ 3000 ∧
    endsWith TRUNCATION_NOTICE (truncate_block_text (List.replicate 3001 'a')) = true :=
  ⟨by rw [List.length_replicate]; decide,
    ((c8_slack_transport_limits.2.2.1 (List.replicate 3001 'a')
      (by rw [List.length_replicate]; decide))).1,
    ((c8_slack_transport_limits.2.2.1 (List.replicate 3001 'a')
      (by rw [List.length_replicate]; decide))).2.1⟩

end SlackAnalyticsBot
